import Mathlib

/-!
Shallow embedding of the drm-rs marshalling layer (`drm-ffi/src/mode.rs` and
`src/control/lease.rs`).

The kernel ioctl primitive is an external collaborator; it is modelled as a
list of responses, one consumed per kernel call issued, each either a system
error code or the counts the kernel writes back into the call record.
Caller-owned `Vec` buffers are modelled by their observable length and
allocated capacity.  Each embedded operation returns the number of kernel
calls it issued (or, for `get_connector`, the list of request records it
issued) together with either the resulting record's counts and the final
buffers, or an error.  A Rust `assert!` failure is modelled as a usage
error; running out of oracle responses is the `exhausted` artifact and
never occurs under the theorems' hypotheses.
-/

namespace DrmFfi

/-- A caller-owned growable buffer (`Vec<T>`): observable length and allocated capacity. -/
structure Buffer where
  len : Nat
  cap : Nat
deriving DecidableEq

/-- Modelled from the spec: the `map_reserve!` macro of drm-ffi (its defining module is
not under src/): "grow each destination buffer's capacity to at least the probed
count"; an absent buffer is left absent. -/
def map_reserve (b : Option Buffer) (n : Nat) : Option Buffer :=
  b.map fun v => { v with cap := max v.cap n }

/-- Modelled from the spec: the `map_len!` macro: "each count field set to the
buffer's *capacity* (not its previous length)"; 0 when the buffer is absent. -/
def map_len (b : Option Buffer) : Nat :=
  match b with
  | some v => v.cap
  | none => 0

/-- Modelled from the spec: the `map_ptr!` macro yields the buffer's storage pointer,
null exactly when the buffer is absent (a `Vec`'s pointer is never null).  Only
nullness is observable in this model. -/
def map_ptr_null (b : Option Buffer) : Bool := b.isNone

/-- Modelled from the spec: the `map_set!` macro: "the buffer's observable length
after the call equals the kernel-reported count for that call". -/
def map_set (b : Option Buffer) (n : Nat) : Option Buffer :=
  b.map fun v => { v with len := n }

/-- Observable length of an optional buffer. -/
def lenOf (b : Option Buffer) : Option Nat := b.map Buffer.len

/-- The error outcomes of an embedded operation: a usage error (a failed
`assert!`), a system error code surfaced unchanged from a kernel call, or
exhaustion of the response oracle (a model artifact). -/
inductive Err where
  | usage
  | sys (code : Nat)
  | exhausted
deriving DecidableEq

/-- Counts written back by the `get_resources` ioctl (`drm_mode_card_res`). -/
structure CardRes where
  count_fbs : Nat := 0
  count_crtcs : Nat := 0
  count_connectors : Nat := 0
  count_encoders : Nat := 0
deriving DecidableEq

/-- `get_resources`: probe with null pointers and zero counts, grow every supplied
buffer to the probed count, fetch with each count set to the buffer capacity, set
each buffer's length to the fetched count.  No convergence check and no
short-circuit: the fetch call is issued even when every buffer is absent. -/
def get_resources (fbs crtcs connectors encoders : Option Buffer)
    (resps : List (Except Nat CardRes)) :
    Nat × Except Err (CardRes × Option Buffer × Option Buffer × Option Buffer × Option Buffer) :=
  match resps with
  | [] => (1, .error .exhausted)
  | .error e :: _ => (1, .error (.sys e))
  | .ok sizes :: rest =>
    let fbs := map_reserve fbs sizes.count_fbs
    let crtcs := map_reserve crtcs sizes.count_crtcs
    let connectors := map_reserve connectors sizes.count_connectors
    let encoders := map_reserve encoders sizes.count_encoders
    match rest with
    | [] => (2, .error .exhausted)
    | .error e :: _ => (2, .error (.sys e))
    | .ok res :: _ =>
      (2, .ok (res, map_set fbs res.count_fbs, map_set crtcs res.count_crtcs,
               map_set connectors res.count_connectors, map_set encoders res.count_encoders))

/-- Counts written back by the `get_plane_resources` ioctl. -/
structure PlaneRes where
  count_planes : Nat := 0
deriving DecidableEq

/-- `get_plane_resources`: probe; if no buffer was supplied return the probe result
(one kernel call); otherwise grow, fetch with the probed count, set the length. -/
def get_plane_resources (planes : Option Buffer) (resps : List (Except Nat PlaneRes)) :
    Nat × Except Err (PlaneRes × Option Buffer) :=
  match resps with
  | [] => (1, .error .exhausted)
  | .error e :: _ => (1, .error (.sys e))
  | .ok sizes :: rest =>
    if planes.isNone then (1, .ok (sizes, planes))
    else
      let planes := map_reserve planes sizes.count_planes
      match rest with
      | [] => (2, .error .exhausted)
      | .error e :: _ => (2, .error (.sys e))
      | .ok res :: _ => (2, .ok (res, map_set planes res.count_planes))

/-- Counts written back by the `get_plane` ioctl (`drm_mode_get_plane`). -/
structure PlaneInfo where
  count_format_types : Nat := 0
deriving DecidableEq

/-- `get_plane`: probe keyed by `plane_id`; short-circuits to the probe result when
no format buffer was supplied; otherwise fetch with the probed count. -/
def get_plane (plane_id : Nat) (formats : Option Buffer)
    (resps : List (Except Nat PlaneInfo)) :
    Nat × Except Err (PlaneInfo × Option Buffer) :=
  match resps with
  | [] => (1, .error .exhausted)
  | .error e :: _ => (1, .error (.sys e))
  | .ok sizes :: rest =>
    if formats.isNone then (1, .ok (sizes, formats))
    else
      let formats := map_reserve formats sizes.count_format_types
      match rest with
      | [] => (2, .error .exhausted)
      | .error e :: _ => (2, .error (.sys e))
      | .ok info :: _ => (2, .ok (info, map_set formats info.count_format_types))

/-- Counts written back by the `get_property` ioctl (`drm_mode_get_property`). -/
structure PropRes where
  count_values : Nat := 0
  count_enum_blobs : Nat := 0
deriving DecidableEq

/-- `get_property`: probe keyed by `prop_id`; grow the value and enum-blob buffers
to the probed counts; fetch once with counts set to the capacities; set lengths to
the fetched counts and return — with no comparison of the fetched counts against
the probed counts and no retry. -/
def get_property (prop_id : Nat) (values enums : Option Buffer)
    (resps : List (Except Nat PropRes)) :
    Nat × Except Err (PropRes × Option Buffer × Option Buffer) :=
  match resps with
  | [] => (1, .error .exhausted)
  | .error e :: _ => (1, .error (.sys e))
  | .ok sizes :: rest =>
    let values := map_reserve values sizes.count_values
    let enums := map_reserve enums sizes.count_enum_blobs
    match rest with
    | [] => (2, .error .exhausted)
    | .error e :: _ => (2, .error (.sys e))
    | .ok prop :: _ =>
      (2, .ok (prop, map_set values prop.count_values, map_set enums prop.count_enum_blobs))

/-- Count written back by the `get_property_blob` ioctl (`drm_mode_get_blob`). -/
structure BlobRes where
  length : Nat := 0
deriving DecidableEq

/-- `get_property_blob`: probe keyed by `blob_id`; short-circuits to the probe
result when no data buffer was supplied; otherwise fetch with the probed length. -/
def get_property_blob (blob_id : Nat) (data : Option Buffer)
    (resps : List (Except Nat BlobRes)) :
    Nat × Except Err (BlobRes × Option Buffer) :=
  match resps with
  | [] => (1, .error .exhausted)
  | .error e :: _ => (1, .error (.sys e))
  | .ok sizes :: rest =>
    if data.isNone then (1, .ok (sizes, data))
    else
      let data := map_reserve data sizes.length
      match rest with
      | [] => (2, .error .exhausted)
      | .error e :: _ => (2, .error (.sys e))
      | .ok blob :: _ => (2, .ok (blob, map_set data blob.length))

/-- Count written back by the `obj_get_properties` ioctl. -/
structure ObjProps where
  count_props : Nat := 0
deriving DecidableEq

/-- `get_properties` (object property enumeration): the paired buffers must be
jointly present or jointly absent (`assert_eq!(props.is_some(), values.is_some())`,
modelled as a usage error issued before any kernel call); then probe keyed by
(`obj_id`, `obj_type`), grow both buffers to `count_props`, fetch once with the
id-buffer capacity as the count, and set both lengths to the fetched
`count_props`. -/
def get_properties (obj_id obj_type : Nat) (props values : Option Buffer)
    (resps : List (Except Nat ObjProps)) :
    Nat × Except Err (ObjProps × Option Buffer × Option Buffer) :=
  if props.isSome ≠ values.isSome then (0, .error .usage)
  else
    match resps with
    | [] => (1, .error .exhausted)
    | .error e :: _ => (1, .error (.sys e))
    | .ok sizes :: rest =>
      let props := map_reserve props sizes.count_props
      let values := map_reserve values sizes.count_props
      match rest with
      | [] => (2, .error .exhausted)
      | .error e :: _ => (2, .error (.sys e))
      | .ok info :: _ =>
        (2, .ok (info, map_set props info.count_props, map_set values info.count_props))

/-- The three counts written back by the `get_connector` ioctl that the
convergence loop compares. -/
structure ConnCounts where
  count_modes : Nat := 0
  count_props : Nat := 0
  count_encoders : Nat := 0
deriving DecidableEq

/-- The observable part of one `drm_mode_get_connector` request record as issued
to the kernel: the connector key, nullness of each array pointer, and the three
count fields. -/
structure ConnReq where
  connector_id : Nat
  modes_ptr_null : Bool
  props_ptr_null : Bool
  prop_values_ptr_null : Bool
  encoders_ptr_null : Bool
  count_modes : Nat
  count_props : Nat
  count_encoders : Nat
deriving DecidableEq

/-- The probe record of `get_connector`: only the connector key is populated,
except that without `force_probe` a single temporary mode slot is requested
(`count_modes = 1` with a non-null pointer to one stack slot). -/
def connProbeReq (connector_id : Nat) (force_probe : Bool) : ConnReq :=
  { connector_id
    modes_ptr_null := force_probe
    props_ptr_null := true
    prop_values_ptr_null := true
    encoders_ptr_null := true
    count_modes := if force_probe then 0 else 1
    count_props := 0
    count_encoders := 0 }

/-- The fetch record of one `get_connector` loop iteration: pointers from the
(reserved) buffers, `count_modes` from the mode buffer's capacity (falling back
to the probe convention when no mode buffer was supplied), and the other counts
from the buffer capacities. -/
def connFetchReq (connector_id : Nat) (force_probe : Bool)
    (props prop_values modes encoders : Option Buffer) : ConnReq :=
  { connector_id
    modes_ptr_null := match modes with
      | some _ => false
      | none => force_probe
    props_ptr_null := map_ptr_null props
    prop_values_ptr_null := map_ptr_null prop_values
    encoders_ptr_null := map_ptr_null encoders
    count_modes := match modes with
      | some b => b.cap
      | none => if force_probe then 0 else 1
    count_props := map_len props
    count_encoders := map_len encoders }

/-- One full result of `get_connector`: the accepted counts and the four final
buffers, in the order (props, prop_values, modes, encoders). -/
abbrev ConnOut :=
  ConnCounts × Option Buffer × Option Buffer × Option Buffer × Option Buffer

/-- The retry loop of `get_connector`: reserve each buffer to the current sizing
counts, issue a fetch, and accept exactly when all three returned counts equal
the sizing counts; otherwise the fetch result becomes the new sizing counts and
the loop repeats.  On acceptance each buffer's length is set to the accepted
count (`prop_values` shares `count_props`). -/
def connLoop (connector_id : Nat) (force_probe : Bool)
    (props prop_values modes encoders : Option Buffer) (sizes : ConnCounts)
    (resps : List (Except Nat ConnCounts)) :
    List ConnReq × Except Err ConnOut :=
  let props' := map_reserve props sizes.count_props
  let prop_values' := map_reserve prop_values sizes.count_props
  let modes' := map_reserve modes sizes.count_modes
  let encoders' := map_reserve encoders sizes.count_encoders
  let req := connFetchReq connector_id force_probe props' prop_values' modes' encoders'
  match resps with
  | [] => ([req], .error .exhausted)
  | .error e :: _ => ([req], .error (.sys e))
  | .ok info :: rest =>
    if info.count_modes = sizes.count_modes ∧ info.count_encoders = sizes.count_encoders
        ∧ info.count_props = sizes.count_props then
      ([req], .ok (info, map_set props' info.count_props, map_set prop_values' info.count_props,
                   map_set modes' info.count_modes, map_set encoders' info.count_encoders))
    else
      let next := connLoop connector_id force_probe props' prop_values' modes' encoders' info rest
      (req :: next.1, next.2)

/-- `get_connector`: the paired property buffers must be jointly present or
jointly absent (`assert_eq!`, modelled as a usage error before any kernel call);
then probe (with the force-probe convention for the mode slot) and run the
convergence loop seeded with the probed counts. -/
def get_connector (connector_id : Nat) (props prop_values modes encoders : Option Buffer)
    (force_probe : Bool) (resps : List (Except Nat ConnCounts)) :
    List ConnReq × Except Err ConnOut :=
  if props.isSome ≠ prop_values.isSome then ([], .error .usage)
  else
    let preq := connProbeReq connector_id force_probe
    match resps with
    | [] => ([preq], .error .exhausted)
    | .error e :: _ => ([preq], .error (.sys e))
    | .ok sizes :: rest =>
      let r := connLoop connector_id force_probe props prop_values modes encoders sizes rest
      (preq :: r.1, r.2)

/-- The `drm_mode_crtc_page_flip` request record; its five fields. -/
structure PageFlipReq where
  crtc_id : Nat
  fb_id : Nat
  flags : Nat
  reserved : Nat
  user_data : Nat
deriving DecidableEq

/-- `page_flip`: builds the flip record with `reserved := sequence` (the same
struct as `drm_mode_crtc_page_flip_target`) and `user_data := crtc_id`, then
issues one kernel call. -/
def page_flip (crtc_id fb_id flags sequence : Nat) (resp : Except Nat Unit) :
    PageFlipReq × Except Err Unit :=
  let flip : PageFlipReq :=
    { crtc_id, fb_id, flags, reserved := sequence, user_data := crtc_id }
  (flip, match resp with
    | .error e => .error (.sys e)
    | .ok _ => .ok ())

/-- A DRM lessee id: a transparent wrapper of one 32-bit value
(`struct LesseeId(u32)` with derived `Copy, Clone, Hash, PartialEq, Eq`). -/
structure LesseeId where
  val : Nat
deriving DecidableEq

/-- `impl From<u32> for LesseeId`. -/
def LesseeId.fromU32 (handle : Nat) : LesseeId := ⟨handle⟩

/-- `impl From<LesseeId> for u32`: returns the wrapped value. -/
def LesseeId.toU32 (handle : LesseeId) : Nat := handle.val

/-- The derived `Hash` of `LesseeId` feeds exactly the wrapped field to the
hasher; the stream of words written is the observable hashing behavior. -/
def LesseeId.hashStream (handle : LesseeId) : List Nat := [handle.val]

/-- First index (0-based) in a list of fetch results at which all three counts
equal the previous call's counts (the sizing counts), i.e. the first fetch the
convergence loop accepts. -/
def firstAccept (sizes : ConnCounts) : List ConnCounts → Option Nat
  | [] => none
  | p :: rest =>
    if p.count_modes = sizes.count_modes ∧ p.count_encoders = sizes.count_encoders
        ∧ p.count_props = sizes.count_props then
      some 0
    else
      (firstAccept p rest).map (· + 1)

@[simp] theorem map_reserve_none (n : Nat) : map_reserve none n = none := rfl

@[simp] theorem map_reserve_some (v : Buffer) (n : Nat) :
    map_reserve (some v) n = some { v with cap := max v.cap n } := rfl

@[simp] theorem map_set_none (n : Nat) : map_set none n = none := rfl

@[simp] theorem map_set_some (v : Buffer) (n : Nat) :
    map_set (some v) n = some { v with len := n } := rfl

@[simp] theorem lenOf_none : lenOf none = none := rfl

@[simp] theorem lenOf_some (v : Buffer) : lenOf (some v) = some v.len := rfl

/-- Whenever the connector loop returns successfully, every supplied buffer's
final length equals the corresponding accepted count (prop values sharing
`count_props`), and every accepted count is bounded by the final capacity. -/
theorem connLoop_ok (cid : Nat) (fp : Bool) (resps : List (Except Nat ConnCounts)) :
    ∀ (props pvals modes encs : Option Buffer) (sizes : ConnCounts)
      (reqs : List ConnReq) (info : ConnCounts) (pb vb mb eb : Option Buffer),
      connLoop cid fp props pvals modes encs sizes resps = (reqs, .ok (info, pb, vb, mb, eb)) →
      lenOf pb = props.map (fun _ => info.count_props) ∧
      lenOf vb = pvals.map (fun _ => info.count_props) ∧
      lenOf mb = modes.map (fun _ => info.count_modes) ∧
      lenOf eb = encs.map (fun _ => info.count_encoders) ∧
      (∀ v, pb = some v → info.count_props ≤ v.cap) ∧
      (∀ v, vb = some v → info.count_props ≤ v.cap) ∧
      (∀ v, mb = some v → info.count_modes ≤ v.cap) ∧
      (∀ v, eb = some v → info.count_encoders ≤ v.cap) := by
  induction resps with
  | nil =>
    intro props pvals modes encs sizes reqs info pb vb mb eb h
    simp [connLoop] at h
  | cons r rest ih =>
    intro props pvals modes encs sizes reqs info pb vb mb eb h
    cases r with
    | error e => simp [connLoop] at h
    | ok p =>
      rw [connLoop] at h
      split at h
      · rename_i hacc
        obtain ⟨hm, he, hp⟩ := hacc
        simp only [Prod.mk.injEq, Except.ok.injEq, Prod.mk.injEq] at h
        obtain ⟨-, hinfo, hpb, hvb, hmb, heb⟩ := h
        subst hinfo hpb hvb hmb heb
        refine ⟨?_, ?_, ?_, ?_, ?_, ?_, ?_, ?_⟩
        · cases props <;> simp
        · cases pvals <;> simp
        · cases modes <;> simp
        · cases encs <;> simp
        · intro v hv
          cases props with
          | none => simp at hv
          | some a =>
            simp only [map_reserve_some, map_set_some, Option.some.injEq] at hv
            subst hv
            simp [hp]
        · intro v hv
          cases pvals with
          | none => simp at hv
          | some a =>
            simp only [map_reserve_some, map_set_some, Option.some.injEq] at hv
            subst hv
            simp [hp]
        · intro v hv
          cases modes with
          | none => simp at hv
          | some a =>
            simp only [map_reserve_some, map_set_some, Option.some.injEq] at hv
            subst hv
            simp [hm]
        · intro v hv
          cases encs with
          | none => simp at hv
          | some a =>
            simp only [map_reserve_some, map_set_some, Option.some.injEq] at hv
            subst hv
            simp [he]
      · simp only [Prod.mk.injEq] at h
        obtain ⟨-, h2⟩ := h
        have := ih _ _ _ _ _ _ _ _ _ _ _ (Prod.ext rfl h2)
        obtain ⟨h1, h2', h3, h4, h5, h6, h7, h8⟩ := this
        refine ⟨?_, ?_, ?_, ?_, h5, h6, h7, h8⟩
        · rw [h1]; cases props <;> simp
        · rw [h2']; cases pvals <;> simp
        · rw [h3]; cases modes <;> simp
        · rw [h4]; cases encs <;> simp

/-- When the fetch results `Ps` first satisfy the convergence test at index `k`
(relative to the sizing counts), the loop issues exactly `k + 1` fetch calls and
returns the `k`-th fetch's counts, regardless of any further oracle content. -/
theorem connLoop_accept (cid : Nat) (fp : Bool) (Ps : List ConnCounts) :
    ∀ (k : Nat) (props pvals modes encs : Option Buffer) (sizes : ConnCounts)
      (rest : List (Except Nat ConnCounts)),
      firstAccept sizes Ps = some k →
      ∃ reqs info pb vb mb eb,
        connLoop cid fp props pvals modes encs sizes (Ps.map .ok ++ rest) =
          (reqs, .ok (info, pb, vb, mb, eb)) ∧
        reqs.length = k + 1 ∧ Ps.get? k = some info := by
  induction Ps with
  | nil => intro k _ _ _ _ _ _ h; simp [firstAccept] at h
  | cons p ps ih =>
    intro k props pvals modes encs sizes rest h
    rw [firstAccept] at h
    split at h
    · rename_i hacc
      simp only [Option.some.injEq] at h
      subst h
      rw [List.map_cons, List.cons_append, connLoop]
      rw [if_pos hacc]
      exact ⟨_, p, _, _, _, _, rfl, rfl, rfl⟩
    · rename_i hacc
      simp only [Option.map_eq_some'] at h
      obtain ⟨j, hj, hk⟩ := h
      subst hk
      obtain ⟨reqs, info, pb, vb, mb, eb, heq, hlen, hget⟩ :=
        ih j (map_reserve props sizes.count_props) (map_reserve pvals sizes.count_props)
          (map_reserve modes sizes.count_modes) (map_reserve encs sizes.count_encoders) p rest hj
      have heq2 : connLoop cid fp props pvals modes encs sizes
          (List.map Except.ok (p :: ps) ++ rest) =
          (connFetchReq cid fp (map_reserve props sizes.count_props)
              (map_reserve pvals sizes.count_props) (map_reserve modes sizes.count_modes)
              (map_reserve encs sizes.count_encoders) :: reqs,
            .ok (info, pb, vb, mb, eb)) := by
        rw [List.map_cons, List.cons_append, connLoop, if_neg hacc, heq]
      exact ⟨_, info, pb, vb, mb, eb, heq2, by simp [hlen], by simpa using hget⟩

/-- When no prefix of fetch results passes the convergence test and the next
oracle response is a system error, the loop surfaces exactly that error code
after consuming the whole prefix plus the failing call, touching nothing after
it. -/
theorem connLoop_error (cid : Nat) (fp : Bool) (Ps : List ConnCounts) :
    ∀ (props pvals modes encs : Option Buffer) (sizes : ConnCounts) (e : Nat)
      (rest : List (Except Nat ConnCounts)),
      firstAccept sizes Ps = none →
      ∃ reqs,
        connLoop cid fp props pvals modes encs sizes (Ps.map .ok ++ .error e :: rest) =
          (reqs, .error (.sys e)) ∧
        reqs.length = Ps.length + 1 := by
  induction Ps with
  | nil =>
    intro props pvals modes encs sizes e rest _
    exact ⟨_, rfl, rfl⟩
  | cons p ps ih =>
    intro props pvals modes encs sizes e rest h
    rw [firstAccept] at h
    split at h
    · simp at h
    · rename_i hacc
      simp only [Option.map_eq_none'] at h
      obtain ⟨reqs, heq, hlen⟩ :=
        ih (map_reserve props sizes.count_props) (map_reserve pvals sizes.count_props)
          (map_reserve modes sizes.count_modes) (map_reserve encs sizes.count_encoders)
          p e rest h
      have heq2 : connLoop cid fp props pvals modes encs sizes
          (List.map Except.ok (p :: ps) ++ .error e :: rest) =
          (connFetchReq cid fp (map_reserve props sizes.count_props)
              (map_reserve pvals sizes.count_props) (map_reserve modes sizes.count_modes)
              (map_reserve encs sizes.count_encoders) :: reqs,
            .error (.sys e)) := by
        rw [List.map_cons, List.cons_append, connLoop, if_neg hacc, heq]
      exact ⟨_, heq2, by simp [hlen]⟩

/-- Every fetch record the loop issues while the caller supplied no mode buffer
keeps the probe convention for the mode slot: `count_modes` is 1 with a non-null
pointer by default, 0 with a null pointer under force-probe. -/
theorem connLoop_modes_none (cid : Nat) (fp : Bool) (resps : List (Except Nat ConnCounts)) :
    ∀ (props pvals encs : Option Buffer) (sizes : ConnCounts) (r : ConnReq),
      r ∈ (connLoop cid fp props pvals none encs sizes resps).1 →
      r.count_modes = (if fp then 0 else 1) ∧ r.modes_ptr_null = fp := by
  induction resps with
  | nil =>
    intro props pvals encs sizes r hr
    simp only [connLoop, map_reserve_none, List.mem_singleton] at hr
    subst hr
    exact ⟨rfl, rfl⟩
  | cons x rest ih =>
    intro props pvals encs sizes r hr
    cases x with
    | error e =>
      simp only [connLoop, map_reserve_none, List.mem_singleton] at hr
      subst hr
      exact ⟨rfl, rfl⟩
    | ok info =>
      rw [connLoop] at hr
      simp only [map_reserve_none] at hr
      split at hr
      · simp only [List.mem_singleton] at hr
        subst hr
        exact ⟨rfl, rfl⟩
      · simp only [List.mem_cons] at hr
        rcases hr with hr | hr
        · subst hr
          exact ⟨rfl, rfl⟩
        · exact ih _ _ _ _ _ hr

/-- A successful loop run accepts at some fetch index `i` whose response repeats
the response that sized it: the previous fetch (or, at `i = 0`, the seed sizing
counts) carried the same counts. -/
theorem connLoop_ok_stable (cid : Nat) (fp : Bool) (resps : List (Except Nat ConnCounts)) :
    ∀ (props pvals modes encs : Option Buffer) (sizes : ConnCounts)
      (reqs : List ConnReq) (info : ConnCounts) (pb vb mb eb : Option Buffer),
      connLoop cid fp props pvals modes encs sizes resps = (reqs, .ok (info, pb, vb, mb, eb)) →
      ∃ i, reqs.length = i + 1 ∧ resps.get? i = some (.ok info) ∧
        ((i = 0 ∧ sizes = info) ∨ ∃ j, i = j + 1 ∧ resps.get? j = some (.ok info)) := by
  induction resps with
  | nil =>
    intro props pvals modes encs sizes reqs info pb vb mb eb h
    simp [connLoop] at h
  | cons x rest ih =>
    intro props pvals modes encs sizes reqs info pb vb mb eb h
    cases x with
    | error e => simp [connLoop] at h
    | ok p =>
      rw [connLoop] at h
      split at h
      · rename_i hacc
        obtain ⟨hm, he, hp⟩ := hacc
        simp only [Prod.mk.injEq, Except.ok.injEq, Prod.mk.injEq] at h
        obtain ⟨hreqs, hinfo, -, -, -, -⟩ := h
        subst hinfo
        refine ⟨0, by simp [← hreqs], by simp, Or.inl ⟨rfl, ?_⟩⟩
        cases p; cases sizes
        simp only at hm he hp
        simp [hm, he, hp]
      · simp only [Prod.mk.injEq] at h
        obtain ⟨hreqs, h2⟩ := h
        obtain ⟨i, hlen, hget, hprev⟩ := ih _ _ _ _ p _ _ _ _ _ _ (Prod.ext rfl h2)
        refine ⟨i + 1, ?_, by simpa using hget, Or.inr ⟨i, rfl, ?_⟩⟩
        · simp [← hreqs, hlen]
        · rcases hprev with ⟨hi, hs⟩ | ⟨j, hij, hj⟩
          · subst hi hs
            simp [hget]
          · subst hij
            simpa using hj

/-- C9: converting a 32-bit value to a `LesseeId` and back yields the same value,
and two `LesseeId`s are equal — and feed identical data to the hasher — exactly
when their raw values are equal. -/
theorem lesseeid_roundtrip_eq_hash :
    (∀ x : Nat, x < 2 ^ 32 → LesseeId.toU32 (LesseeId.fromU32 x) = x) ∧
    (∀ a b : LesseeId,
      (a = b ↔ a.val = b.val) ∧ (a.hashStream = b.hashStream ↔ a.val = b.val)) := by
  refine ⟨fun x _ => rfl, fun a b => ⟨?_, ?_⟩⟩
  · cases a; cases b; simp
  · cases a; cases b; simp [LesseeId.hashStream]

/-- C9 witness: the theorem applied at the concrete value 7. -/
theorem lesseeid_roundtrip_eq_hash_witness :
    LesseeId.toU32 (LesseeId.fromU32 7) = 7 :=
  lesseeid_roundtrip_eq_hash.1 7 (by decide)

/-- C10: the page-flip request record carries `user_data = crtc_id` (not a
caller-chosen value) and the `sequence` argument in the `reserved` field; the
record has no further fields beyond the three semantic arguments, so nothing is
left unspecified. -/
theorem page_flip_request_fields (crtc_id fb_id flags seq : Nat) (resp : Except Nat Unit) :
    (page_flip crtc_id fb_id flags seq resp).1 =
      { crtc_id, fb_id, flags, reserved := seq, user_data := crtc_id } ∧
    (page_flip crtc_id fb_id flags seq resp).1.user_data = crtc_id ∧
    (page_flip crtc_id fb_id flags seq resp).1.reserved = seq :=
  ⟨rfl, rfl, rfl⟩

/-- C6: requesting exactly one of the paired property buffers makes
`get_properties` and `get_connector` fail with a usage error before issuing any
kernel call (call count 0, empty request trace). -/
theorem paired_buffer_usage_error :
    (∀ (obj_id obj_type : Nat) (props values : Option Buffer)
        (resps : List (Except Nat ObjProps)),
      props.isSome ≠ values.isSome →
      get_properties obj_id obj_type props values resps = (0, .error .usage)) ∧
    (∀ (cid : Nat) (props pvals modes encs : Option Buffer) (fp : Bool)
        (resps : List (Except Nat ConnCounts)),
      props.isSome ≠ pvals.isSome →
      get_connector cid props pvals modes encs fp resps = ([], .error .usage)) := by
  constructor
  · intro obj_id obj_type props values resps h
    simp [get_properties, h]
  · intro cid props pvals modes encs fp resps h
    rw [get_connector, if_pos h]

/-- C6 witness: the theorem applied with a present id buffer and an absent value
buffer. -/
theorem paired_buffer_usage_error_witness :
    get_properties 1 2 (some ⟨0, 0⟩) none [] = (0, .error .usage) ∧
    get_connector 3 (some ⟨0, 0⟩) none none none false [] = ([], .error .usage) :=
  ⟨paired_buffer_usage_error.1 1 2 (some ⟨0, 0⟩) none [] (by decide),
   paired_buffer_usage_error.2 3 (some ⟨0, 0⟩) none none none false [] (by decide)⟩

/-- C5 counterexample: `get_resources` invoked with every destination buffer
absent still issues the fetch call — two kernel calls, not the single probe the
claim demands. -/
theorem get_resources_two_calls_with_no_buffers :
    (get_resources none none none none [.ok {}, .ok {}]).1 = 2 ∧ (2 : Nat) ≠ 1 := by
  decide

/-- C5 (amended): `get_plane_resources`, `get_plane` and `get_property_blob`
short-circuit to exactly one kernel call (the probe) when the destination buffer
is absent, while `get_resources` issues its fetch even with every destination
buffer absent, for two kernel calls. -/
theorem probe_only_short_circuit :
    (∀ (s : PlaneRes) (rest : List (Except Nat PlaneRes)),
      get_plane_resources none (.ok s :: rest) = (1, .ok (s, none))) ∧
    (∀ (pid : Nat) (s : PlaneInfo) (rest : List (Except Nat PlaneInfo)),
      get_plane pid none (.ok s :: rest) = (1, .ok (s, none))) ∧
    (∀ (bid : Nat) (s : BlobRes) (rest : List (Except Nat BlobRes)),
      get_property_blob bid none (.ok s :: rest) = (1, .ok (s, none))) ∧
    (∀ (s r : CardRes) (rest : List (Except Nat CardRes)),
      (get_resources none none none none (.ok s :: .ok r :: rest)).1 = 2) :=
  ⟨fun _ _ => rfl, fun _ _ _ => rfl, fun _ _ _ => rfl, fun _ _ _ => rfl⟩

/-- C1 counterexample: `get_property` sized its buffers for 2 enum blobs
(the probed count) but the fetch reported 3; the call nevertheless returns
success with the grown count after exactly two kernel calls, with no re-probe
and no re-fetch. -/
theorem get_property_accepts_grown_count :
    get_property 7 (some ⟨0, 0⟩) (some ⟨0, 0⟩)
        [.ok { count_values := 2, count_enum_blobs := 2 },
         .ok { count_values := 2, count_enum_blobs := 3 }] =
      (2, .ok ({ count_values := 2, count_enum_blobs := 3 }, some ⟨2, 2⟩, some ⟨3, 2⟩)) ∧
    (2 : Nat) < 3 :=
  ⟨rfl, by decide⟩

/-- C3 counterexample: `get_resources` grew the framebuffer buffer to capacity 1
(the probed count) but the accepting fetch reported 5 framebuffers and the call
returned success, so the reported count exceeds the capacity the buffer was
grown to. -/
theorem get_resources_count_exceeds_capacity :
    get_resources (some ⟨0, 0⟩) none none none
        [.ok { count_fbs := 1 }, .ok { count_fbs := 5 }] =
      (2, .ok ({ count_fbs := 5 }, some ⟨5, 1⟩, none, none, none)) ∧
    (1 : Nat) < 5 :=
  ⟨rfl, by decide⟩

/-- Unfolding of `get_connector` when the paired buffers agree and the probe
succeeds: the trace is the probe record followed by the loop's trace. -/
theorem get_connector_cons_ok (cid : Nat) (props pvals modes encs : Option Buffer)
    (fp : Bool) (sizes : ConnCounts) (rest : List (Except Nat ConnCounts))
    (hpair : props.isSome = pvals.isSome) :
    get_connector cid props pvals modes encs fp (.ok sizes :: rest) =
      (connProbeReq cid fp :: (connLoop cid fp props pvals modes encs sizes rest).1,
        (connLoop cid fp props pvals modes encs sizes rest).2) := by
  rw [get_connector, if_neg (by simp [hpair])]

/-- A successful `get_connector` run must have passed the paired-buffer assert,
consumed a successful probe response, and obtained its result from the loop. -/
theorem get_connector_ok_elim (cid : Nat) (props pvals modes encs : Option Buffer)
    (fp : Bool) (resps : List (Except Nat ConnCounts)) (reqs : List ConnReq) (out : ConnOut)
    (h : get_connector cid props pvals modes encs fp resps = (reqs, .ok out)) :
    ∃ sizes rest, resps = .ok sizes :: rest ∧
      reqs = connProbeReq cid fp :: (connLoop cid fp props pvals modes encs sizes rest).1 ∧
      (connLoop cid fp props pvals modes encs sizes rest).2 = .ok out := by
  rw [get_connector] at h
  split at h
  · simp at h
  · cases resps with
    | nil => simp at h
    | cons x rest =>
      cases x with
      | error e => simp at h
      | ok sizes =>
        exact ⟨sizes, rest, rfl, (congrArg Prod.fst h).symm, congrArg Prod.snd h⟩

/-- C1 (amended): only `get_connector` re-fetches — it accepts a fetch only when
its counts repeat the counts of the call that sized the buffers (so a success at
fetch index `i` means responses `i` and `i + 1` of the oracle, probe included,
carry identical counts and exactly `i + 2` kernel calls were made) — while
`get_property` issues exactly one probe and one fetch and returns the fetch's
counts unchanged even when they exceed the sizing counts. -/
theorem fetcher_retry_only_get_connector :
    (∀ (cid : Nat) (props pvals modes encs : Option Buffer) (fp : Bool)
        (resps : List (Except Nat ConnCounts)) (reqs : List ConnReq)
        (info : ConnCounts) (pb vb mb eb : Option Buffer),
      get_connector cid props pvals modes encs fp resps = (reqs, .ok (info, pb, vb, mb, eb)) →
      ∃ i, resps.get? i = some (.ok info) ∧ resps.get? (i + 1) = some (.ok info) ∧
        reqs.length = i + 2) ∧
    (∀ (pid : Nat) (values enums : Option Buffer) (s p : PropRes)
        (rest : List (Except Nat PropRes)),
      get_property pid values enums (.ok s :: .ok p :: rest) =
        (2, .ok (p, map_set (map_reserve values s.count_values) p.count_values,
                 map_set (map_reserve enums s.count_enum_blobs) p.count_enum_blobs))) := by
  constructor
  · intro cid props pvals modes encs fp resps reqs info pb vb mb eb h
    obtain ⟨sizes, rest, hres, hreqs, h2⟩ :=
      get_connector_ok_elim cid props pvals modes encs fp resps reqs (info, pb, vb, mb, eb) h
    obtain ⟨i, hlen, hget, hprev⟩ :=
      connLoop_ok_stable cid fp rest props pvals modes encs sizes _ info pb vb mb eb
        (Prod.ext rfl h2)
    subst hres hreqs
    rcases hprev with ⟨hi, hs⟩ | ⟨j, hij, hj⟩
    · subst hi hs
      exact ⟨0, by simp, by simpa using hget, by simp [hlen]⟩
    · subst hij
      refine ⟨j + 1, by simpa using hj, by simpa using hget, ?_⟩
      simp [hlen]
  · intro pid values enums s p rest
    rfl

/-- C1 witness: with equal probe and fetch counts, `get_connector` succeeds at
the first fetch: oracle entries 0 and 1 coincide and exactly two calls are
made. -/
theorem fetcher_retry_only_get_connector_witness :
    ∃ i, ([.ok { count_modes := 1 }, .ok { count_modes := 1 }] :
        List (Except Nat ConnCounts)).get? i = some (.ok { count_modes := 1 }) ∧
      ([.ok { count_modes := 1 }, .ok { count_modes := 1 }] :
        List (Except Nat ConnCounts)).get? (i + 1) = some (.ok { count_modes := 1 }) ∧
      ([connProbeReq 1 false, connFetchReq 1 false none none none none]).length = i + 2 :=
  fetcher_retry_only_get_connector.1 1 none none none none false
    [.ok { count_modes := 1 }, .ok { count_modes := 1 }]
    [connProbeReq 1 false, connFetchReq 1 false none none none none]
    { count_modes := 1 } none none none none rfl

/-- C2: when the fetch counts P1..Pn first repeat the sizing counts at index `k`
(`firstAccept` finds the first fetch all three of whose counts jointly equal the
previous call's counts), `get_connector` terminates at exactly that fetch —
`k + 2` kernel calls in total — returning that call's counts with every supplied
buffer's length equal to those counts. -/
theorem get_connector_converges_at_first_stable
    (cid : Nat) (props pvals modes encs : Option Buffer) (fp : Bool)
    (P0 : ConnCounts) (Ps : List ConnCounts) (k : Nat)
    (rest : List (Except Nat ConnCounts))
    (hpair : props.isSome = pvals.isSome)
    (hk : firstAccept P0 Ps = some k) :
    ∃ reqs info pb vb mb eb,
      get_connector cid props pvals modes encs fp (.ok P0 :: (Ps.map .ok ++ rest)) =
        (reqs, .ok (info, pb, vb, mb, eb)) ∧
      reqs.length = k + 2 ∧
      Ps.get? k = some info ∧
      lenOf pb = props.map (fun _ => info.count_props) ∧
      lenOf vb = pvals.map (fun _ => info.count_props) ∧
      lenOf mb = modes.map (fun _ => info.count_modes) ∧
      lenOf eb = encs.map (fun _ => info.count_encoders) := by
  obtain ⟨reqs, info, pb, vb, mb, eb, heq, hlen, hget⟩ :=
    connLoop_accept cid fp Ps k props pvals modes encs P0 rest hk
  obtain ⟨l1, l2, l3, l4, -, -, -, -⟩ :=
    connLoop_ok cid fp (Ps.map .ok ++ rest) props pvals modes encs P0 reqs info pb vb mb eb heq
  refine ⟨connProbeReq cid fp :: reqs, info, pb, vb, mb, eb, ?_, by simp [hlen], hget,
    l1, l2, l3, l4⟩
  have hco := get_connector_cons_ok cid props pvals modes encs fp P0 (Ps.map .ok ++ rest) hpair
  rw [hco, heq]

/-- C2 witness: probe reports 1 property, the first fetch reports 2 (mismatch),
the second fetch repeats 2 and is accepted: three kernel calls, buffer lengths
equal to the accepted counts. -/
theorem get_connector_converges_at_first_stable_witness :
    ∃ reqs info pb vb mb eb,
      get_connector 2 (some ⟨0, 0⟩) (some ⟨0, 0⟩) (some ⟨0, 0⟩) none true
          (.ok { count_props := 1 } ::
            (([{ count_props := 2 }, { count_props := 2 }] : List ConnCounts).map .ok ++ [])) =
        (reqs, .ok (info, pb, vb, mb, eb)) ∧
      reqs.length = 1 + 2 ∧
      ([{ count_props := 2 }, { count_props := 2 }] : List ConnCounts).get? 1 = some info ∧
      lenOf pb = (some ⟨0, 0⟩ : Option Buffer).map (fun _ => info.count_props) ∧
      lenOf vb = (some ⟨0, 0⟩ : Option Buffer).map (fun _ => info.count_props) ∧
      lenOf mb = (some ⟨0, 0⟩ : Option Buffer).map (fun _ => info.count_modes) ∧
      lenOf eb = (none : Option Buffer).map (fun _ => info.count_encoders) :=
  get_connector_converges_at_first_stable 2 (some ⟨0, 0⟩) (some ⟨0, 0⟩) (some ⟨0, 0⟩) none true
    { count_props := 1 } [{ count_props := 2 }, { count_props := 2 }] 1 [] rfl (by decide)

/-- C3 (amended): after a successful `get_connector`, the accepted counts never
exceed the capacity each supplied buffer was grown to (the convergence test
guarantees this); the single-pass operations do not enjoy this bound when the
kernel count grows between probe and fetch. -/
theorem get_connector_counts_within_capacity
    (cid : Nat) (props pvals modes encs : Option Buffer) (fp : Bool)
    (resps : List (Except Nat ConnCounts)) (reqs : List ConnReq)
    (info : ConnCounts) (pb vb mb eb : Option Buffer)
    (h : get_connector cid props pvals modes encs fp resps = (reqs, .ok (info, pb, vb, mb, eb))) :
    (∀ v, pb = some v → info.count_props ≤ v.cap) ∧
    (∀ v, vb = some v → info.count_props ≤ v.cap) ∧
    (∀ v, mb = some v → info.count_modes ≤ v.cap) ∧
    (∀ v, eb = some v → info.count_encoders ≤ v.cap) := by
  obtain ⟨sizes, rest, -, -, h2⟩ :=
    get_connector_ok_elim cid props pvals modes encs fp resps reqs (info, pb, vb, mb, eb) h
  have hc := connLoop_ok cid fp rest props pvals modes encs sizes _ info pb vb mb eb
    (Prod.ext rfl h2)
  exact ⟨hc.2.2.2.2.1, hc.2.2.2.2.2.1, hc.2.2.2.2.2.2.1, hc.2.2.2.2.2.2.2⟩

/-- C3 witness: with all four buffers supplied and converging counts (2 props,
1 mode, 3 encoders), every accepted count is bounded by the final capacity. -/
theorem get_connector_counts_within_capacity_witness :
    (∀ v, (some ⟨2, 2⟩ : Option Buffer) = some v → (2 : Nat) ≤ v.cap) ∧
    (∀ v, (some ⟨2, 2⟩ : Option Buffer) = some v → (2 : Nat) ≤ v.cap) ∧
    (∀ v, (some ⟨1, 1⟩ : Option Buffer) = some v → (1 : Nat) ≤ v.cap) ∧
    (∀ v, (some ⟨3, 3⟩ : Option Buffer) = some v → (3 : Nat) ≤ v.cap) :=
  get_connector_counts_within_capacity 4 (some ⟨0, 0⟩) (some ⟨0, 0⟩) (some ⟨0, 0⟩)
    (some ⟨0, 0⟩) false
    [.ok { count_modes := 1, count_props := 2, count_encoders := 3 },
     .ok { count_modes := 1, count_props := 2, count_encoders := 3 }]
    [connProbeReq 4 false,
     connFetchReq 4 false (some ⟨0, 2⟩) (some ⟨0, 2⟩) (some ⟨0, 1⟩) (some ⟨0, 3⟩)]
    { count_modes := 1, count_props := 2, count_encoders := 3 }
    (some ⟨2, 2⟩) (some ⟨2, 2⟩) (some ⟨1, 1⟩) (some ⟨3, 3⟩) rfl

/-- C4: on success every supplied buffer's final length equals the count the
accepting kernel call reported for that array — for `get_resources` the four
counts of the second call, for `get_connector` the accepted counts (the property
value buffer sharing `count_props`), and for `get_properties` the fetched
`count_props` for both paired buffers. -/
theorem fetch_sets_lengths_to_reported_counts :
    (∀ (fbs crtcs connectors encoders : Option Buffer) (s r : CardRes)
        (rest : List (Except Nat CardRes)),
      ∃ fb cb nb eb, get_resources fbs crtcs connectors encoders (.ok s :: .ok r :: rest) =
          (2, .ok (r, fb, cb, nb, eb)) ∧
        lenOf fb = fbs.map (fun _ => r.count_fbs) ∧
        lenOf cb = crtcs.map (fun _ => r.count_crtcs) ∧
        lenOf nb = connectors.map (fun _ => r.count_connectors) ∧
        lenOf eb = encoders.map (fun _ => r.count_encoders)) ∧
    (∀ (cid : Nat) (props pvals modes encs : Option Buffer) (fp : Bool)
        (resps : List (Except Nat ConnCounts)) (reqs : List ConnReq)
        (info : ConnCounts) (pb vb mb eb : Option Buffer),
      get_connector cid props pvals modes encs fp resps = (reqs, .ok (info, pb, vb, mb, eb)) →
      lenOf pb = props.map (fun _ => info.count_props) ∧
      lenOf vb = pvals.map (fun _ => info.count_props) ∧
      lenOf mb = modes.map (fun _ => info.count_modes) ∧
      lenOf eb = encs.map (fun _ => info.count_encoders)) ∧
    (∀ (obj_id obj_type : Nat) (props values : Option Buffer) (s i : ObjProps)
        (rest : List (Except Nat ObjProps)),
      props.isSome = values.isSome →
      ∃ pb vb, get_properties obj_id obj_type props values (.ok s :: .ok i :: rest) =
          (2, .ok (i, pb, vb)) ∧
        lenOf pb = props.map (fun _ => i.count_props) ∧
        lenOf vb = values.map (fun _ => i.count_props)) := by
  refine ⟨?_, ?_, ?_⟩
  · intro fbs crtcs connectors encoders s r rest
    refine ⟨map_set (map_reserve fbs s.count_fbs) r.count_fbs,
            map_set (map_reserve crtcs s.count_crtcs) r.count_crtcs,
            map_set (map_reserve connectors s.count_connectors) r.count_connectors,
            map_set (map_reserve encoders s.count_encoders) r.count_encoders,
            rfl, ?_, ?_, ?_, ?_⟩
    · cases fbs <;> simp
    · cases crtcs <;> simp
    · cases connectors <;> simp
    · cases encoders <;> simp
  · intro cid props pvals modes encs fp resps reqs info pb vb mb eb h
    obtain ⟨sizes, rest, -, -, h2⟩ :=
      get_connector_ok_elim cid props pvals modes encs fp resps reqs (info, pb, vb, mb, eb) h
    have hc := connLoop_ok cid fp rest props pvals modes encs sizes _ info pb vb mb eb
      (Prod.ext rfl h2)
    exact ⟨hc.1, hc.2.1, hc.2.2.1, hc.2.2.2.1⟩
  · intro obj_id obj_type props values s i rest hpv
    refine ⟨map_set (map_reserve props s.count_props) i.count_props,
            map_set (map_reserve values s.count_props) i.count_props, ?_, ?_, ?_⟩
    · rw [get_properties, if_neg (by simp [hpv])]
    · cases props <;> simp
    · cases values <;> simp

/-- C4 witness: the three parts of the theorem at concrete inputs with all
hypotheses discharged. -/
theorem fetch_sets_lengths_to_reported_counts_witness :
    (∃ fb cb nb eb, get_resources (some ⟨0, 0⟩) none none none
        [.ok { count_fbs := 1 }, .ok { count_fbs := 2 }] =
        (2, .ok ({ count_fbs := 2 }, fb, cb, nb, eb)) ∧
      lenOf fb = (some ⟨0, 0⟩ : Option Buffer).map (fun _ => 2) ∧
      lenOf cb = (none : Option Buffer).map (fun _ => 0) ∧
      lenOf nb = (none : Option Buffer).map (fun _ => 0) ∧
      lenOf eb = (none : Option Buffer).map (fun _ => 0)) ∧
    (lenOf (some ⟨1, 1⟩) = (some ⟨0, 0⟩ : Option Buffer).map (fun _ => 1) ∧
      lenOf (some ⟨1, 1⟩) = (some ⟨0, 0⟩ : Option Buffer).map (fun _ => 1) ∧
      lenOf (none : Option Buffer) = (none : Option Buffer).map (fun _ => 0) ∧
      lenOf (none : Option Buffer) = (none : Option Buffer).map (fun _ => 0)) ∧
    (∃ pb vb, get_properties 9 1 (some ⟨0, 0⟩) (some ⟨0, 0⟩)
        [.ok { count_props := 1 }, .ok { count_props := 1 }] =
        (2, .ok ({ count_props := 1 }, pb, vb)) ∧
      lenOf pb = (some ⟨0, 0⟩ : Option Buffer).map (fun _ => 1) ∧
      lenOf vb = (some ⟨0, 0⟩ : Option Buffer).map (fun _ => 1)) :=
  ⟨fetch_sets_lengths_to_reported_counts.1 (some ⟨0, 0⟩) none none none
      { count_fbs := 1 } { count_fbs := 2 } [],
   fetch_sets_lengths_to_reported_counts.2.1 8 (some ⟨0, 0⟩) (some ⟨0, 0⟩) none none false
      [.ok { count_props := 1 }, .ok { count_props := 1 }]
      [connProbeReq 8 false, connFetchReq 8 false (some ⟨0, 1⟩) (some ⟨0, 1⟩) none none]
      { count_props := 1 } (some ⟨1, 1⟩) (some ⟨1, 1⟩) none none rfl,
   fetch_sets_lengths_to_reported_counts.2.2 9 1 (some ⟨0, 0⟩) (some ⟨0, 0⟩)
      { count_props := 1 } { count_props := 1 } [] rfl⟩

/-- C7: a kernel-call error at any step aborts the operation at once — the
error code is returned unchanged, nothing is retried or translated, and no
further kernel call is issued (the call count, or request trace, stops at the
failing call).  Shown for `get_resources`, `get_property`,
`get_plane_resources`, `page_flip`, and for `get_connector` both at the probe
and at an arbitrary loop iteration. -/
theorem errors_surface_unchanged :
    (∀ (fbs crtcs connectors encoders : Option Buffer) (e : Nat)
        (rest : List (Except Nat CardRes)),
      get_resources fbs crtcs connectors encoders (.error e :: rest) = (1, .error (.sys e))) ∧
    (∀ (fbs crtcs connectors encoders : Option Buffer) (s : CardRes) (e : Nat)
        (rest : List (Except Nat CardRes)),
      get_resources fbs crtcs connectors encoders (.ok s :: .error e :: rest) =
        (2, .error (.sys e))) ∧
    (∀ (pid : Nat) (values enums : Option Buffer) (e : Nat)
        (rest : List (Except Nat PropRes)),
      get_property pid values enums (.error e :: rest) = (1, .error (.sys e))) ∧
    (∀ (pid : Nat) (values enums : Option Buffer) (s : PropRes) (e : Nat)
        (rest : List (Except Nat PropRes)),
      get_property pid values enums (.ok s :: .error e :: rest) = (2, .error (.sys e))) ∧
    (∀ (planes : Option Buffer) (e : Nat) (rest : List (Except Nat PlaneRes)),
      get_plane_resources planes (.error e :: rest) = (1, .error (.sys e))) ∧
    (∀ (v : Buffer) (s : PlaneRes) (e : Nat) (rest : List (Except Nat PlaneRes)),
      get_plane_resources (some v) (.ok s :: .error e :: rest) = (2, .error (.sys e))) ∧
    (∀ (crtc_id fb_id flags seq e : Nat),
      (page_flip crtc_id fb_id flags seq (.error e)).2 = .error (.sys e)) ∧
    (∀ (cid : Nat) (props pvals modes encs : Option Buffer) (fp : Bool) (e : Nat)
        (rest : List (Except Nat ConnCounts)),
      props.isSome = pvals.isSome →
      get_connector cid props pvals modes encs fp (.error e :: rest) =
        ([connProbeReq cid fp], .error (.sys e))) ∧
    (∀ (cid : Nat) (props pvals modes encs : Option Buffer) (fp : Bool)
        (P0 : ConnCounts) (Ps : List ConnCounts) (e : Nat)
        (rest : List (Except Nat ConnCounts)),
      props.isSome = pvals.isSome →
      firstAccept P0 Ps = none →
      ∃ reqs, get_connector cid props pvals modes encs fp
          (.ok P0 :: (Ps.map .ok ++ .error e :: rest)) = (reqs, .error (.sys e)) ∧
        reqs.length = Ps.length + 2) := by
  refine ⟨fun _ _ _ _ _ _ => rfl, fun _ _ _ _ _ _ _ => rfl, fun _ _ _ _ _ => rfl,
    fun _ _ _ _ _ _ => rfl, fun _ _ _ => rfl, fun _ _ _ _ => rfl, fun _ _ _ _ _ => rfl,
    ?_, ?_⟩
  · intro cid props pvals modes encs fp e rest hpair
    rw [get_connector, if_neg (by simp [hpair])]
  · intro cid props pvals modes encs fp P0 Ps e rest hpair hna
    obtain ⟨reqs, heq, hlen⟩ :=
      connLoop_error cid fp Ps props pvals modes encs P0 e rest hna
    refine ⟨connProbeReq cid fp :: reqs, ?_, by simp [hlen]⟩
    have hco := get_connector_cons_ok cid props pvals modes encs fp P0
      (Ps.map .ok ++ .error e :: rest) hpair
    rw [hco, heq]

/-- C7 witness: a probe-time error code 13 and a loop-time error code 5 are each
surfaced unchanged with the kernel-call trace stopping at the failing call. -/
theorem errors_surface_unchanged_witness :
    (get_connector 1 none none none none false [.error 13] =
      ([connProbeReq 1 false], .error (.sys 13))) ∧
    (∃ reqs, get_connector 1 none none none none false
        (.ok {} :: (([{ count_props := 1 }] : List ConnCounts).map .ok ++ .error 5 :: [])) =
        (reqs, .error (.sys 5)) ∧
      reqs.length = 1 + 2) :=
  ⟨errors_surface_unchanged.2.2.2.2.2.2.2.1 1 none none none none false 13 [] rfl,
   errors_surface_unchanged.2.2.2.2.2.2.2.2 1 none none none none false {}
     [{ count_props := 1 }] 5 [] rfl (by decide)⟩

/-- C8: with `force_probe = false` the probe — and every fetch issued while the
caller supplied no mode buffer — carries `count_modes = 1` with a non-null mode
pointer (one temporary mode slot); with `force_probe = true` those calls carry
`count_modes = 0` with a null pointer. -/
theorem connector_probe_mode_slot
    (cid : Nat) (props pvals modes encs : Option Buffer) (fp : Bool)
    (resps : List (Except Nat ConnCounts))
    (hpair : props.isSome = pvals.isSome) :
    ((get_connector cid props pvals modes encs fp resps).1.head? =
      some (connProbeReq cid fp)) ∧
    (connProbeReq cid fp).count_modes = (if fp then 0 else 1) ∧
    (connProbeReq cid fp).modes_ptr_null = fp ∧
    (∀ r ∈ (get_connector cid props pvals none encs fp resps).1,
      r.count_modes = (if fp then 0 else 1) ∧ r.modes_ptr_null = fp) := by
  have hne : ¬(props.isSome ≠ pvals.isSome) := by simp [hpair]
  refine ⟨?_, rfl, rfl, ?_⟩
  · rw [get_connector, if_neg hne]
    cases resps with
    | nil => rfl
    | cons x rest =>
      cases x with
      | error e => rfl
      | ok sizes => rfl
  · intro r hr
    rw [get_connector, if_neg hne] at hr
    cases resps with
    | nil =>
      simp only [List.mem_singleton] at hr
      subst hr
      exact ⟨rfl, rfl⟩
    | cons x rest =>
      cases x with
      | error e =>
        simp only [List.mem_singleton] at hr
        subst hr
        exact ⟨rfl, rfl⟩
      | ok sizes =>
        simp only [List.mem_cons] at hr
        rcases hr with hr | hr
        · subst hr
          exact ⟨rfl, rfl⟩
        · exact connLoop_modes_none cid fp rest props pvals encs sizes r hr

/-- C8 witness: the theorem at a concrete connector with `force_probe = false`
and no mode buffer. -/
theorem connector_probe_mode_slot_witness :
    ((get_connector 0 none none none none false []).1.head? =
      some (connProbeReq 0 false)) ∧
    (connProbeReq 0 false).count_modes = (if false then 0 else 1) ∧
    (connProbeReq 0 false).modes_ptr_null = false ∧
    (∀ r ∈ (get_connector 0 none none none none false []).1,
      r.count_modes = (if false then 0 else 1) ∧ r.modes_ptr_null = false) :=
  connector_probe_mode_slot 0 none none none none false [] rfl

end DrmFfi
